import Mathlib

/-!
Verification development for the RingSocket repository sources:
`src/ringsocket_app_helper.h`, `src/rs_tcp.c`, `src/ringsocket_api.h`.

The embedding fixes a little-endian host. That is the code's reference
platform: `ringsocket_api.h` provides `RS_IS_LITTLE_ENDIAN` and byte-swapping
`RS_HTON*` macros that are only non-trivial on little-endian machines, and the
documented memory-ordering argument targets x86-TSO. All type punning
(`*((uint64_t *) (uint32_t []){a, b})` in `rs_get_client_id`,
`(uint32_t *) &client_id` in `rs_to_single`, direct integer stores into byte
buffers) is therefore translated with little-endian memory layout:
a `uintN` store at a byte position lays down `N/8` bytes, least significant
first. Machine integers are modelled as `Nat` with `% 2^w` applied exactly
where the C performs a narrowing conversion or where `size_t` wraparound can
occur. Syscall results (`read`, `write`, `shutdown`, allocation success) are
oracle parameters, since the kernel may return any of them.
-/

namespace RingSocket

/-- Model of `rs_ret` from `ringsocket_api.h` (RS_OK, RS_CLOSE_PEER, RS_FATAL,
RS_AGAIN). -/
inductive RsRet where
  | ok
  | closePeer
  | fatal
  | again
deriving DecidableEq, Repr

/-- The Linux `EAGAIN` errno value. -/
def EAGAIN : Nat := 11

/-- The Linux `ECONNRESET` errno value, used as a representative
non-`EAGAIN` errno. -/
def ECONNRESET : Nat := 104

/-- The `k` bytes of `v` in little-endian order (the memory image of a `uintN`
store on the little-endian host); only the low `8*k` bits of `v` are used,
exactly as a narrowing store would. -/
def leBytes : Nat → Nat → List Nat
  | 0, _ => []
  | k + 1, v => v % 256 :: leBytes k (v / 256)

/-- The `k` bytes of `v` in big-endian order: the memory image left by
`RS_W_HTON16/64(ptr, v)` on the little-endian host (byte swap, then
little-endian store). -/
def beBytes (k v : Nat) : List Nat := (leBytes k v).reverse

@[simp] theorem leBytes_length (k v : Nat) : (leBytes k v).length = k := by
  induction k generalizing v with
  | zero => rfl
  | succ k ih => simp [leBytes, ih]

/-- Model of `enum rs_outbound_kind`. Modelled from the spec: the enum itself lives in
`ringsocket_queue.h`, which is not among the provided sources; the spec's §3
"Outbound message record" lists its members in order
SINGLE, ARRAY, EVERY, EVERY_EXCEPT_SINGLE, EVERY_EXCEPT_ARRAY. -/
inductive OutboundKind where
  | single
  | array
  | every
  | everyExceptSingle
  | everyExceptArray
deriving DecidableEq, Repr

/-- The `(uint8_t) outbound_kind` byte written at the head of an outbound
record, following the spec's declaration order of the enum. -/
def kindByte : OutboundKind → Nat
  | .single => 0
  | .array => 1
  | .every => 2
  | .everyExceptSingle => 3
  | .everyExceptArray => 4

/-- The recipient-header bytes `rs_send` writes after the kind byte
(`ringsocket_app_helper.h:175-184`): nothing if `recipient_c` is zero;
a `uint32_t` count first when `recipient_c > 1`; then the `do`/`while` loop
stores `recipient_c` successive `uint32_t` recipient values. `rc32` is the
value of the `uint32_t recipient_c` parameter after C's narrowing
conversion of the caller's argument. -/
def recipientBytes (recipients : List Nat) (recipientC : Nat) : List Nat :=
  let rc32 := recipientC % 2 ^ 32
  if rc32 ≠ 0 then
    (if rc32 > 1 then leBytes 4 rc32 else []) ++
      ((recipients.take rc32).map (fun r => leBytes 4 r)).flatten
  else []

/-- The WebSocket header bytes `rs_send` emits
(`ringsocket_app_helper.h:162-194`): first the reservation size `msg_size`
is computed from `payload_size` (lines 162-170: `+10`, `+4` or `+2` by
payload band, then `++` for the kind byte), and the header written at lines
185-194 then branches on that already-inflated `msg_size`, emitting
`127` + big-endian u64 when `msg_size > UINT16_MAX`, `126` + big-endian u16
when `msg_size > 125`, and — as the source has no `else` arm — no length
byte at all otherwise. -/
def wsHeaderBytes (isUtf8 : Bool) (payloadSize : Nat) : List Nat :=
  let m1 := if payloadSize > 65535 then payloadSize + 10
            else if payloadSize > 125 then payloadSize + 4
            else payloadSize + 2
  let msgSize := m1 + 1
  (if isUtf8 then 0x81 else 0x82) ::
    (if msgSize > 65535 then 127 :: beBytes 8 payloadSize
     else if msgSize > 125 then 126 :: beBytes 2 payloadSize
     else [])

/-- Model of `rs_send` (`ringsocket_app_helper.h:148-206`). Inputs: the current
scratch contents (`(*n->wbuf)[0 .. n->wbuf_i)` as a byte list), the outbound
kind, the `recipients` array, the caller's `recipient_c` argument, the
`is_utf8` flag, the user payload `p[0 .. size)` as a byte list, and
`n->conf->max_ws_msg_size`. Result: `none` when the oversize check at lines
158-161 takes the `return RS_FATAL` exit (nothing is written to the ring),
otherwise `some` of the exact byte sequence the function writes through
`ring->writer`: kind byte, recipient header, WebSocket header, scratch
bytes, then payload bytes. The ring bookkeeping calls
(`rs_prepare_ring_write`, `rs_enqueue_ring_update`, both guarded by
`RS_GUARD_APP`) live outside the provided sources and only fail on
allocation failure; they are assumed to succeed here. -/
def rs_send (scratch : List Nat) (kind : OutboundKind) (recipients : List Nat)
    (recipientC : Nat) (isUtf8 : Bool) (p : List Nat) (maxWsMsgSize : Nat) :
    Option (List Nat) :=
  let payloadSize := scratch.length + p.length
  if payloadSize > maxWsMsgSize then
    none
  else
    some (kindByte kind % 256 ::
      (recipientBytes recipients recipientC ++
        (wsHeaderBytes isUtf8 payloadSize ++ (scratch ++ p))))

/-- Model of `rs_get_client_id` (`ringsocket_app_helper.h:13-17`):
`*((uint64_t *) (uint32_t []){n->src_worker_thread_i, n->src_peer_i})`.
On the little-endian host the first array element (the worker index) becomes
the low 32 bits of the 64-bit value and the second (the peer index) the high
32 bits. The `struct rs` fields are `uint32_t`, hence the `% 2^32`. -/
def rs_get_client_id (srcWorkerThreadI srcPeerI : Nat) : Nat :=
  srcWorkerThreadI % 2 ^ 32 + srcPeerI % 2 ^ 32 * 2 ^ 32

/-- The low-order 32 bits of a 64-bit value. -/
def lo32 (v : Nat) : Nat := v % 2 ^ 32

/-- The high-order 32 bits of a 64-bit value. -/
def hi32 (v : Nat) : Nat := v / 2 ^ 32 % 2 ^ 32

/-- The observable effect of one `rs_to_*` send wrapper: which worker's
outbound ring was addressed, with which `rs_outbound_kind` and recipient
array, the record bytes written there (`none` when `rs_send` took its
`RS_FATAL` exit), and the scratch offset `n->wbuf_i` after the call. -/
structure SendCall where
  workerI : Nat
  kind : OutboundKind
  recipients : List Nat
  record : Option (List Nat)
  wbufI : Nat
deriving DecidableEq, Repr

/-- Model of `rs_to_single` (`ringsocket_app_helper.h:208-218`):
`uint32_t * u32 = (uint32_t *) &client_id;` then
`rs_send(n, *u32, RS_OUTBOUND_SINGLE, u32 + 1, 1, is_utf8, p, size)`.
On the little-endian host `u32[0]` is the low 32 bits of `client_id` (used
as the worker/ring index) and `u32[1]` the high 32 bits (the single
recipient). The trailing `n->wbuf_i = 0;` runs after a successful send.
Modelled from the spec for the `RS_FATAL` exit: `rs_send`'s status-handling
macros (`RS_GUARD_APP` / `RS_APP_FATAL`, `ringsocket_app.h`) are not among
the provided sources, and spec §7 states that FATAL terminates the process,
so on the oversize path control never reaches the scratch reset and
`wbuf_i` keeps its value. -/
def rs_to_single (scratch : List Nat) (isUtf8 : Bool) (clientId : Nat)
    (p : List Nat) (maxWsMsgSize : Nat) : SendCall :=
  let w := clientId % 2 ^ 32
  let r := clientId / 2 ^ 32 % 2 ^ 32
  let rec_ := rs_send scratch .single [r] 1 isUtf8 p maxWsMsgSize
  { workerI := w
    kind := .single
    recipients := [r]
    record := rec_
    wbufI := match rec_ with
      | none => scratch.length
      | some _ => 0 }

/-- The `cur_clients` array accumulated for worker `i` by the inner loop of
`rs_to_multi` (`ringsocket_app_helper.h:231-236`): for each client id in
order, compare its first `uint32_t` word (`*u32++`, on the little-endian
host the low 32 bits: the worker half) against `i`, and collect the second
word (the high 32 bits: the peer half) on a match. -/
def workerPeers (clientIds : List Nat) (i : Nat) : List Nat :=
  clientIds.filterMap (fun cid =>
    if cid % 2 ^ 32 = i then some (cid / 2 ^ 32 % 2 ^ 32) else none)

/-- The body of one iteration of `rs_to_multi`'s worker loop
(`ringsocket_app_helper.h:237-247`): `switch (cur_client_c)` emits nothing
for zero matches, a `RS_OUTBOUND_SINGLE` send for exactly one, and a
`RS_OUTBOUND_ARRAY` send carrying `cur_client_c` for more than one. -/
def rs_to_multi_record (scratch : List Nat) (isUtf8 : Bool)
    (clientIds : List Nat) (p : List Nat) (maxWsMsgSize : Nat) (i : Nat) :
    Option (List Nat) :=
  match workerPeers clientIds i with
  | [] => none
  | [c] => rs_send scratch .single [c] 1 isUtf8 p maxWsMsgSize
  | c :: cs =>
      rs_send scratch .array (c :: cs) (c :: cs).length isUtf8 p maxWsMsgSize

/-- Model of `rs_to_multi` (`ringsocket_app_helper.h:220-250`): the outer loop over
`i ∈ [0, n->conf->worker_c)`, paired with the record each iteration writes
to worker `i`'s outbound ring (iterations that emit nothing contribute no
pair). -/
def rs_to_multi (workerC : Nat) (scratch : List Nat) (isUtf8 : Bool)
    (clientIds : List Nat) (p : List Nat) (maxWsMsgSize : Nat) :
    List (Nat × List Nat) :=
  (List.range workerC).filterMap (fun i =>
    (rs_to_multi_record scratch isUtf8 clientIds p maxWsMsgSize i).map
      (fun b => (i, b)))

/-- Model of `rs_w_uint64` (`ringsocket_app_helper.h:69-76`). Its parameter is
declared `uint32_t u64`, so the caller's 64-bit argument `v` is first
narrowed to `v % 2^32`; the body then stores that value through a
`uint64_t *`, laying down 8 little-endian bytes at `wbuf + wbuf_i` and
advancing `wbuf_i` by 8. The result is the scratch contents after the
append. -/
def rs_w_uint64 (scratch : List Nat) (v : Nat) : List Nat :=
  scratch ++ leBytes 8 (v % 2 ^ 32)

/-- Model of `RS_HTON64` / `__builtin_bswap64` on the little-endian host: the 8-byte
reversal of `v`'s 64-bit value. -/
def bswap64 (v : Nat) : Nat :=
  (leBytes 8 (v % 2 ^ 64)).foldl (fun a b => a * 256 + b) 0

/-- Model of `rs_w_uint64_hton` (`ringsocket_app_helper.h:92-97`): has a genuine
`uint64_t` parameter, computes `RS_HTON64(u64)` (a byte swap on the
little-endian host) and passes the swapped 64-bit value to `rs_w_uint64` —
whose `uint32_t` parameter narrows it again. -/
def rs_w_uint64_hton (scratch : List Nat) (v : Nat) : List Nat :=
  rs_w_uint64 scratch (bswap64 v)

/-- Model of `rs_check_app_wsize` (`ringsocket_app_helper.h:19-31`). State inputs:
whether `*n->wbuf` is NULL, `*n->wbuf_size`, `n->wbuf_i`, the requested
`incr_size`, and `n->conf->realloc_multiplier`; `callocOk`/`reallocOk` are
oracles for allocation success (`RS_CALLOC`/`RS_REALLOC` return `RS_FATAL`
on failure). All sizes are `size_t`, so additions and the multiplication
wrap modulo `2^64`. Result: `none` for the `RS_FATAL` exits, otherwise
`some (wbuf is NULL, new *n->wbuf_size)`. -/
def rs_check_app_wsize (wbufNull : Bool) (wbufSize wbufI incrSize mult : Nat)
    (callocOk reallocOk : Bool) : Option (Bool × Nat) :=
  let step1 : Option Bool :=
    if wbufNull then (if callocOk then some false else none) else some false
  match step1 with
  | none => none
  | some null1 =>
      if (wbufI + incrSize) % 2 ^ 64 ≥ wbufSize then
        let newSize := mult * ((wbufI + incrSize) % 2 ^ 64) % 2 ^ 64
        if reallocOk then some (false, newSize) else none
      else some (null1, wbufSize)

/-- Model of `enum rs_mortality`, in the order the spec's state diagram and the
`switch` in `handle_tcp_io` use: LIVE, SHUTDOWN_WRITE, SHUTDOWN_READ, DEAD
(LIVE first, so an all-zero slot is LIVE). -/
inductive Mortality where
  | live
  | shutdownWrite
  | shutdownRead
  | dead
deriving DecidableEq, Repr

/-- Model of `enum rs_layer`: TCP, TLS, HTTP, WEBSOCKET (TCP first, so an all-zero
slot is at the TCP layer). -/
inductive Layer where
  | tcp
  | tls
  | http
  | websocket
deriving DecidableEq, Repr

/-- The fields of `union rs_peer` that `rs_tcp.c` reads or writes. -/
structure Peer where
  mortality : Mortality
  layer : Layer
  isEncrypted : Bool
  isWriting : Bool
  oldWsize : Nat
  socketFd : Nat
deriving DecidableEq, Repr

/-- The peer slot after `memset(peer, 0, sizeof(union rs_peer))`: every
field zero (first enum members, false, 0). -/
def zeroPeer : Peer :=
  { mortality := .live, layer := .tcp, isEncrypted := false,
    isWriting := false, oldWsize := 0, socketFd := 0 }

/-- Model of `read_tcp` (`rs_tcp.c:9-33`). `readRet` is the oracle for the `read()`
syscall's return value and `errnoIn` for `errno` after it. Result:
`(rs_ret, updated peer, *rsize)`. -/
def read_tcp (p : Peer) (readRet : Int) (errnoIn : Nat) :
    RsRet × Peer × Nat :=
  if 0 < readRet then (.ok, p, readRet.toNat)
  else if readRet = 0 then (.closePeer, p, 0)
  else if errnoIn = EAGAIN then (.again, { p with isWriting := false }, 0)
  else (.closePeer, p, 0)

/-- Model of `write_tcp` (`rs_tcp.c:35-66`). `writeRet` is the oracle for `write()`
and `errnoIn` for `errno` after it. The result carries the `rs_ret`, the
updated peer, and the value of `errno` after the function returns: the
source's `if (errno = EAGAIN)` at line 59 is an assignment, so on the
non-positive-`write` path `errno` is overwritten with `EAGAIN` and the
condition — `EAGAIN ≠ 0` — is always true, making that path return
`RS_AGAIN` unconditionally. -/
def write_tcp (p : Peer) (wbufSize : Nat) (writeRet : Int) (errnoIn : Nat) :
    RsRet × Peer × Nat :=
  let remainingWsize := wbufSize - p.oldWsize
  if 0 < writeRet then
    let wsize := writeRet.toNat
    if wsize = remainingWsize then (.ok, { p with oldWsize := 0 }, errnoIn)
    else (.again,
      { p with oldWsize := p.oldWsize + wsize, isWriting := true }, errnoIn)
  else (.again, { p with isWriting := true }, EAGAIN)

/-- The byte range `write_tcp` passes to `write()` (`rs_tcp.c:44-46`):
offset `peer->old_wsize` into the supplied buffer, length
`wbuf_size - peer->old_wsize` — i.e. exactly the suffix
`[old_wsize .. wbuf_size)`. -/
def write_tcp_range (p : Peer) (wbufSize : Nat) : Nat × Nat :=
  (p.oldWsize, wbufSize - p.oldWsize)

/-- Model of `write_bidirectional_tcp_shutdown` (`rs_tcp.c:68-81`). `shutdownOk` is
the oracle for `shutdown(fd, SHUT_WR)` succeeding. On success the peer's
mortality advances to SHUTDOWN_READ and RS_OK is returned; on failure
RS_FATAL, leaving the peer unchanged. -/
def write_bidirectional_tcp_shutdown (p : Peer) (shutdownOk : Bool) :
    RsRet × Peer :=
  if shutdownOk then (.ok, { p with mortality := .shutdownRead })
  else (.fatal, p)

/-- How the `read()` drain loop of `read_bidirectional_tcp_shutdown` ends:
after finitely many positive reads (whose data is discarded), `read`
returns either `0` or `-1` with some `errno`. -/
inductive DrainEnd where
  | zero
  | err (errnoVal : Nat)
deriving DecidableEq, Repr

/-- Model of `read_bidirectional_tcp_shutdown` (`rs_tcp.c:83-113`). The positive
reads of the drain loop only overwrite `rbuf`, so the outcome depends only
on how the loop ends: `read() == 0` → mortality DEAD, RS_CLOSE_PEER;
`errno == EAGAIN` → `is_writing = false`, RS_AGAIN; any other error →
mortality DEAD, RS_CLOSE_PEER. -/
def read_bidirectional_tcp_shutdown (p : Peer) (dEnd : DrainEnd) :
    RsRet × Peer :=
  match dEnd with
  | .zero => (.closePeer, { p with mortality := .dead })
  | .err e =>
      if e = EAGAIN then (.again, { p with isWriting := false })
      else (.closePeer, { p with mortality := .dead })

/-- The outcome of one `handle_tcp_io` invocation: its `rs_ret`, the peer
slot afterwards, whether `free_peer_slot` was called, and — when
`close(socket_fd)` was reached — the peer's mortality at that moment. -/
structure TcpIoResult where
  ret : RsRet
  peer : Peer
  slotFreed : Bool
  closedAt : Option Mortality
deriving DecidableEq, Repr

/-- The tail of `handle_tcp_io` (`rs_tcp.c:147-159`): `close(socket_fd)`
(a failure is only logged), then `memset(peer, 0, ...)` and
`free_peer_slot(peer_i)`, returning RS_OK. -/
def closeAndFreeSlot (p : Peer) : TcpIoResult :=
  { ret := .ok, peer := zeroPeer, slotFreed := true,
    closedAt := some p.mortality }

/-- The `RS_MORTALITY_SHUTDOWN_READ` arm of `handle_tcp_io`
(`rs_tcp.c:135-146`): run the read drain; on RS_AGAIN return RS_OK with the
slot intact; on RS_FATAL return RS_FATAL; otherwise fall through to the
DEAD arm's close-and-free tail. -/
def shutdownReadStep (p : Peer) (dEnd : DrainEnd) : TcpIoResult :=
  let rp := read_bidirectional_tcp_shutdown p dEnd
  match rp.1 with
  | .again => { ret := .ok, peer := rp.2, slotFreed := false, closedAt := none }
  | .fatal =>
      { ret := .fatal, peer := rp.2, slotFreed := false, closedAt := none }
  | _ => closeAndFreeSlot rp.2

/-- Model of `handle_tcp_io` (`rs_tcp.c:115-160`). Oracles: `shutdownOk` for
`shutdown(SHUT_WR)`, `dEnd` for how the read drain ends, `tlsRet` for
`init_tls_session` in the new-peer arm. The `switch (peer->mortality)`
falls through from SHUTDOWN_WRITE (after a guarded successful write-side
shutdown) into SHUTDOWN_READ, and from there (when the drain neither
blocks nor fails fatally) into the DEAD arm's close/zero/free tail. -/
def handle_tcp_io (p : Peer) (shutdownOk : Bool) (dEnd : DrainEnd)
    (tlsRet : RsRet) : TcpIoResult :=
  match p.mortality with
  | .live =>
      if p.isEncrypted then
        let p' := { p with layer := .tls }
        if tlsRet ≠ .ok then
          { ret := tlsRet, peer := p', slotFreed := false, closedAt := none }
        else
          { ret := .ok, peer := p', slotFreed := false, closedAt := none }
      else
        { ret := .ok, peer := { p with layer := .http }, slotFreed := false,
          closedAt := none }
  | .shutdownWrite =>
      let wp := write_bidirectional_tcp_shutdown p shutdownOk
      if wp.1 ≠ .ok then
        { ret := wp.1, peer := wp.2, slotFreed := false, closedAt := none }
      else shutdownReadStep wp.2 dEnd
  | .shutdownRead => shutdownReadStep p dEnd
  | .dead => closeAndFreeSlot p

/-- C1: the claim states that `rs_send` writes, after the opcode byte, the
WebSocket length encoding determined by the payload size `P` (a single
length byte equal to `P` when `P ≤ 125`, so a 2-byte header). The code
violates this: its emission branches on the already-inflated reservation
size `msg_size` and has no arm for the small band, so at `P = 100` the
emitted WebSocket header is the lone opcode byte `0x82` with no length byte
(the byte following `0x82` in the record is already payload), at `P = 124`
it is the `126` + big-endian-u16 form, and at `P = 65532` the
`127` + big-endian-u64 form — never the single byte `P`. -/
theorem c1_ws_length_encoding_missing_small_byte :
    rs_send [] .single [7] 1 false (List.replicate 100 37) 1000 =
      some ([0, 7, 0, 0, 0, 0x82] ++ List.replicate 100 37) ∧
    wsHeaderBytes false 100 = [0x82] ∧
    wsHeaderBytes false 124 = [0x82, 126, 0, 124] ∧
    wsHeaderBytes false 65532 =
      [0x82, 127, 0, 0, 0, 0, 0, 0, 255, 252] := by
  refine ⟨?_, by decide, by decide, by decide⟩
  decide

/-- C2: the claim states `write_tcp` returns AGAIN exactly when `errno` is
`EAGAIN` and CLOSE_PEER for any other errno. The code's `if (errno = EAGAIN)`
(`rs_tcp.c:59`) assigns instead of comparing, so a failed `write()` with
`errno = ECONNRESET` still yields RS_AGAIN (with `errno` clobbered to
`EAGAIN`), never CLOSE_PEER. -/
theorem c2_write_tcp_errno_assignment :
    (write_tcp ⟨.live, .websocket, false, false, 0, 4⟩ 5 (-1)
      ECONNRESET).1 = .again ∧
    (write_tcp ⟨.live, .websocket, false, false, 0, 4⟩ 5 (-1)
      ECONNRESET).2.2 = EAGAIN ∧
    ECONNRESET ≠ EAGAIN := by
  decide

/-- C8: the claim states `rs_w_uint64 n v` appends the full 8-byte
host-endian representation of `v` (also for `v ≥ 2^32`) and that
`rs_w_uint64_hton` appends the 8-byte network-order representation. The
parameter of `rs_w_uint64` is declared `uint32_t` (`ringsocket_app_helper.h:71`),
so `v = 2^32` is narrowed to `0` and eight zero bytes are appended instead of
the representation of `2^32`; `rs_w_uint64_hton 1` byte-swaps to `2^56` and
then suffers the same narrowing, appending eight zero bytes instead of the
network-order bytes of `1`. The offset does still advance by 8. -/
theorem c8_w_uint64_param_truncates :
    rs_w_uint64 [] (2 ^ 32) = List.replicate 8 0 ∧
    leBytes 8 (2 ^ 32) ≠ List.replicate 8 0 ∧
    rs_w_uint64_hton [] 1 = List.replicate 8 0 ∧
    beBytes 8 1 ≠ List.replicate 8 0 ∧
    (rs_w_uint64 [] (2 ^ 32)).length = 8 := by
  decide

/-- C9: whenever `read_tcp` does not return RS_OK, it has set `*rsize` to
`0`; `*rsize` is non-zero only on the RS_OK path, where it equals the
positive value `read()` returned. -/
theorem c9_read_tcp_rsize_zero_unless_ok (p : Peer) (readRet : Int)
    (errnoIn : Nat) :
    ((read_tcp p readRet errnoIn).1 ≠ .ok →
      (read_tcp p readRet errnoIn).2.2 = 0) ∧
    ((read_tcp p readRet errnoIn).2.2 ≠ 0 →
      (read_tcp p readRet errnoIn).1 = .ok ∧ 0 < readRet ∧
        ((read_tcp p readRet errnoIn).2.2 : Int) = readRet) := by
  unfold read_tcp
  split_ifs with h1 h2 h3
  · exact ⟨fun h => absurd rfl h,
      fun _ => ⟨rfl, h1, Int.toNat_of_nonneg h1.le⟩⟩
  · exact ⟨fun _ => rfl, fun h => absurd rfl h⟩
  · exact ⟨fun _ => rfl, fun h => absurd rfl h⟩
  · exact ⟨fun _ => rfl, fun h => absurd rfl h⟩

theorem c9_read_tcp_rsize_zero_unless_ok_witness :
    (read_tcp ⟨.live, .websocket, false, true, 0, 4⟩ (-1) EAGAIN).2.2 = 0 ∧
    ((read_tcp ⟨.live, .websocket, false, true, 0, 4⟩ 3 0).2.2 ≠ 0 →
      (read_tcp ⟨.live, .websocket, false, true, 0, 4⟩ 3 0).1 = .ok ∧
        (0 : Int) < 3 ∧
        ((read_tcp ⟨.live, .websocket, false, true, 0, 4⟩ 3 0).2.2 : Int)
          = 3) :=
  ⟨(c9_read_tcp_rsize_zero_unless_ok ⟨.live, .websocket, false, true, 0, 4⟩
      (-1) EAGAIN).1 (by decide),
   (c9_read_tcp_rsize_zero_unless_ok ⟨.live, .websocket, false, true, 0, 4⟩
      3 0).2⟩

/-- C4: a send whose payload size `scratch_len + user_size` equals
`max_ws_msg_size` passes the oversize check of `rs_send`
(`ringsocket_app_helper.h:158-161`), writes its record and resets the
scratch offset, while a payload exceeding the cap makes `rs_send` take its
FATAL exit before any ring write, leaving the scratch offset unreset. -/
theorem c4_send_size_boundary (scratch : List Nat) (isUtf8 : Bool)
    (cid : Nat) (p : List Nat) (maxSz : Nat) :
    (scratch.length + p.length = maxSz →
      (∃ b, (rs_to_single scratch isUtf8 cid p maxSz).record = some b) ∧
      (rs_to_single scratch isUtf8 cid p maxSz).wbufI = 0) ∧
    (maxSz < scratch.length + p.length →
      (rs_to_single scratch isUtf8 cid p maxSz).record = none ∧
      (rs_to_single scratch isUtf8 cid p maxSz).wbufI = scratch.length) := by
  constructor
  · intro h
    simp only [rs_to_single, rs_send]
    rw [if_neg (by omega)]
    exact ⟨⟨_, rfl⟩, rfl⟩
  · intro h
    simp only [rs_to_single, rs_send]
    rw [if_pos (by omega)]
    exact ⟨rfl, rfl⟩

theorem c4_send_size_boundary_witness :
    ((rs_to_single (List.replicate 10 0) false 0 (List.replicate 7 1)
        16).record = none ∧
      (rs_to_single (List.replicate 10 0) false 0 (List.replicate 7 1)
        16).wbufI = (List.replicate 10 (0 : Nat)).length) ∧
    (∃ b, (rs_to_single (List.replicate 10 0) false 0 (List.replicate 6 1)
        16).record = some b) :=
  ⟨(c4_send_size_boundary (List.replicate 10 0) false 0 (List.replicate 7 1)
      16).2 (by decide),
   ((c4_send_size_boundary (List.replicate 10 0) false 0 (List.replicate 6 1)
      16).1 (by decide)).1⟩

/-- C3, counterexample to the claim as stated: for the client id packed by
`rs_get_client_id` from `(worker_i, peer_i) = (0, 7)`, `rs_to_single` does
not address the ring of worker `hi32(cid)`: on the little-endian host the
worker index occupies the low half of the id, so `hi32(cid) = 7` while the
ring addressed is worker `0`. -/
theorem c3_hi32_routing_counterexample :
    (rs_to_single [] false (rs_get_client_id 0 7) [] 8).workerI ≠
      hi32 (rs_get_client_id 0 7) := by
  decide

/-- C3, amended: `rs_to_single` addresses the outbound ring of worker
`lo32(cid)` with kind SINGLE and the single recipient `hi32(cid)`; for
every client id produced by `rs_get_client_id` from `(worker_i, peer_i)`
this is exactly worker `worker_i` and recipient `peer_i`, since on the
little-endian host the pack places the worker index in the low half and
the peer index in the high half. -/
theorem c3_to_single_routing (w pe : Nat) (hw : w < 2 ^ 32)
    (hp : pe < 2 ^ 32) (scratch : List Nat) (isUtf8 : Bool)
    (pay : List Nat) (maxSz : Nat) :
    (rs_to_single scratch isUtf8 (rs_get_client_id w pe) pay maxSz).workerI
        = w ∧
    (rs_to_single scratch isUtf8 (rs_get_client_id w pe) pay maxSz).workerI
        = lo32 (rs_get_client_id w pe) ∧
    (rs_to_single scratch isUtf8 (rs_get_client_id w pe) pay maxSz).kind
        = .single ∧
    (rs_to_single scratch isUtf8 (rs_get_client_id w pe) pay maxSz).recipients
        = [pe] ∧
    (rs_to_single scratch isUtf8 (rs_get_client_id w pe) pay maxSz).recipients
        = [hi32 (rs_get_client_id w pe)] := by
  have h32 : 0 < 2 ^ 32 := by positivity
  have hcid : rs_get_client_id w pe = w + pe * 2 ^ 32 := by
    unfold rs_get_client_id
    rw [Nat.mod_eq_of_lt hw, Nat.mod_eq_of_lt hp]
  have hlo : (w + pe * 2 ^ 32) % 2 ^ 32 = w := by
    rw [Nat.add_mul_mod_self_right, Nat.mod_eq_of_lt hw]
  have hhi : (w + pe * 2 ^ 32) / 2 ^ 32 % 2 ^ 32 = pe := by
    rw [Nat.add_mul_div_right w pe h32, Nat.div_eq_of_lt hw, Nat.zero_add,
      Nat.mod_eq_of_lt hp]
  refine ⟨?_, rfl, rfl, ?_, rfl⟩
  · show rs_get_client_id w pe % 2 ^ 32 = w
    rw [hcid]
    exact hlo
  · show [rs_get_client_id w pe / 2 ^ 32 % 2 ^ 32] = [pe]
    rw [hcid, hhi]

theorem c3_to_single_routing_witness :
    ((rs_to_single [] true (rs_get_client_id 2 9) [] 0).workerI = 2 ∧
      (rs_to_single [] true (rs_get_client_id 2 9) [] 0).workerI =
        lo32 (rs_get_client_id 2 9) ∧
      (rs_to_single [] true (rs_get_client_id 2 9) [] 0).kind = .single ∧
      (rs_to_single [] true (rs_get_client_id 2 9) [] 0).recipients = [9] ∧
      (rs_to_single [] true (rs_get_client_id 2 9) [] 0).recipients =
        [hi32 (rs_get_client_id 2 9)]) :=
  c3_to_single_routing 2 9 (by norm_num) (by norm_num) [] true [] 0

/-- C6: `write_tcp` submits to `write()` exactly the suffix
`[old_wsize .. wbuf_size)` of the supplied buffer; a partial write of
`w < wbuf_size - old_wsize` bytes advances `old_wsize` by `w`, sets
`is_writing`, and returns RS_AGAIN so that the retry's range starts at
precisely the first unsent byte; a write completing the remaining range
resets `old_wsize` to `0` and returns RS_OK; and RS_OK is returned only
when the write consumed the whole remaining range. -/
theorem c6_write_tcp_suffix_resume (p : Peer) (wbufSize w : Nat)
    (errnoIn : Nat) :
    (write_tcp_range p wbufSize = (p.oldWsize, wbufSize - p.oldWsize)) ∧
    (0 < w → w < wbufSize - p.oldWsize →
      write_tcp p wbufSize (w : Int) errnoIn =
        (.again, { p with oldWsize := p.oldWsize + w, isWriting := true },
          errnoIn) ∧
      write_tcp_range
          { p with oldWsize := p.oldWsize + w, isWriting := true } wbufSize =
        (p.oldWsize + w, wbufSize - (p.oldWsize + w))) ∧
    (0 < w → w = wbufSize - p.oldWsize →
      write_tcp p wbufSize (w : Int) errnoIn =
        (.ok, { p with oldWsize := 0 }, errnoIn)) ∧
    (∀ ret : Int, (write_tcp p wbufSize ret errnoIn).1 = .ok →
      0 < ret ∧ ret.toNat = wbufSize - p.oldWsize) := by
  refine ⟨rfl, ?_, ?_, ?_⟩
  · intro hw hlt
    have hpos : (0 : Int) < (w : Int) := Int.natCast_pos.mpr hw
    constructor
    · unfold write_tcp
      rw [if_pos hpos, Int.toNat_natCast, if_neg (by omega)]
    · rfl
  · intro hw heq
    have hpos : (0 : Int) < (w : Int) := Int.natCast_pos.mpr hw
    unfold write_tcp
    rw [if_pos hpos, Int.toNat_natCast, if_pos heq]
  · intro ret h
    simp only [write_tcp] at h
    by_cases h1 : (0 : Int) < ret
    · rw [if_pos h1] at h
      by_cases h2 : ret.toNat = wbufSize - p.oldWsize
      · exact ⟨h1, h2⟩
      · rw [if_neg h2] at h
        simp at h
    · rw [if_neg h1] at h
      simp at h

theorem c6_write_tcp_suffix_resume_witness :
    (write_tcp ⟨.live, .websocket, false, false, 2, 4⟩ 10 ((3 : Nat) : Int)
        0 =
      (.again, ⟨.live, .websocket, false, true, 2 + 3, 4⟩, 0) ∧
      write_tcp_range ⟨.live, .websocket, false, true, 2 + 3, 4⟩ 10 =
        (2 + 3, 10 - (2 + 3))) ∧
    write_tcp ⟨.live, .websocket, false, false, 2, 4⟩ 10 ((8 : Nat) : Int)
        0 =
      (.ok, ⟨.live, .websocket, false, false, 0, 4⟩, 0) :=
  ⟨(c6_write_tcp_suffix_resume ⟨.live, .websocket, false, false, 2, 4⟩ 10 3
      0).2.1 (by decide) (by decide),
   (c6_write_tcp_suffix_resume ⟨.live, .websocket, false, false, 2, 4⟩ 10 8
      0).2.2.1 (by decide) (by decide)⟩

/-- C5: entered with mortality SHUTDOWN_WRITE and a successful
`shutdown(SHUT_WR)`, `handle_tcp_io` advances the peer to SHUTDOWN_READ and
falls through to the read drain within the same invocation; a drain ending
in `EAGAIN` returns RS_OK with the slot intact; `close()` is reached only
with mortality DEAD; the slot is zeroed (to the all-zero `memset` state)
and freed exactly when `close()` is reached — never while mortality is not
DEAD — and entering with mortality DEAD closes, zeroes and frees at once. -/
theorem c5_shutdown_fallthrough_and_slot_free (p : Peer) (shutdownOk : Bool)
    (dEnd : DrainEnd) (tlsRet : RsRet) :
    (p.mortality = .shutdownWrite → shutdownOk = true →
      handle_tcp_io p shutdownOk dEnd tlsRet =
        shutdownReadStep { p with mortality := .shutdownRead } dEnd) ∧
    (p.mortality = .shutdownWrite → shutdownOk = true →
      dEnd = .err EAGAIN →
      handle_tcp_io p shutdownOk dEnd tlsRet =
        { ret := .ok,
          peer := { p with mortality := .shutdownRead, isWriting := false },
          slotFreed := false, closedAt := none }) ∧
    (∀ m, (handle_tcp_io p shutdownOk dEnd tlsRet).closedAt = some m →
      m = .dead) ∧
    ((handle_tcp_io p shutdownOk dEnd tlsRet).slotFreed = true ↔
      ((handle_tcp_io p shutdownOk dEnd tlsRet).closedAt).isSome = true) ∧
    ((handle_tcp_io p shutdownOk dEnd tlsRet).slotFreed = true →
      (handle_tcp_io p shutdownOk dEnd tlsRet).peer = zeroPeer) ∧
    (p.mortality = .dead →
      handle_tcp_io p shutdownOk dEnd tlsRet =
        { ret := .ok, peer := zeroPeer, slotFreed := true,
          closedAt := some .dead }) := by
  obtain ⟨mort, lay, enc, isw, ow, fd⟩ := p
  cases mort <;> cases shutdownOk <;> cases enc <;> cases tlsRet <;>
    rcases dEnd with _ | e <;>
    simp [handle_tcp_io, shutdownReadStep, read_bidirectional_tcp_shutdown,
      write_bidirectional_tcp_shutdown, closeAndFreeSlot, zeroPeer] <;>
    split_ifs <;> simp_all

theorem c5_shutdown_fallthrough_and_slot_free_witness :
    handle_tcp_io ⟨.shutdownWrite, .tcp, false, false, 0, 5⟩ true .zero
        .ok =
      { ret := .ok, peer := zeroPeer, slotFreed := true,
        closedAt := some .dead } ∧
    handle_tcp_io ⟨.shutdownWrite, .tcp, false, false, 0, 5⟩ true
        (.err EAGAIN) .ok =
      { ret := .ok, peer := ⟨.shutdownRead, .tcp, false, false, 0, 5⟩,
        slotFreed := false, closedAt := none } := by
  constructor
  · have h := (c5_shutdown_fallthrough_and_slot_free
      ⟨.shutdownWrite, .tcp, false, false, 0, 5⟩ true .zero .ok).1 rfl rfl
    rw [h]
    decide
  · exact (c5_shutdown_fallthrough_and_slot_free
      ⟨.shutdownWrite, .tcp, false, false, 0, 5⟩ true (.err EAGAIN)
      .ok).2.1 rfl rfl rfl

theorem workerPeers_length_le (clientIds : List Nat) (i : Nat) :
    (workerPeers clientIds i).length ≤ clientIds.length :=
  List.length_filterMap_le _ _

theorem recipientBytes_one (c : Nat) : recipientBytes [c] 1 = leBytes 4 c := by
  norm_num [recipientBytes]

theorem recipientBytes_full (l : List Nat) (h1 : 1 < l.length)
    (h2 : l.length < 2 ^ 32) :
    recipientBytes l l.length =
      leBytes 4 l.length ++ (l.map (fun r => leBytes 4 r)).flatten := by
  simp only [recipientBytes]
  rw [Nat.mod_eq_of_lt h2, if_pos (by omega), if_pos h1, List.take_length]

/-- C7: `rs_to_multi` partitions the client ids by their worker half (the
low 32 bits of the id, which `rs_get_client_id` fills with the worker
index); for each worker index below `worker_c` it emits nothing when that
worker has no matching recipients, one SINGLE record carrying the one peer
half when it has exactly one, and one ARRAY record carrying the recipient
count followed by all of that worker's peer halves when it has more than
one; and every emitted record ends with the same scratch-plus-payload
bytes. -/
theorem c7_to_multi_partition (workerC : Nat) (scratch : List Nat)
    (isUtf8 : Bool) (clientIds : List Nat) (p : List Nat) (maxSz i : Nat)
    (hsz : scratch.length + p.length ≤ maxSz)
    (hcl : clientIds.length < 2 ^ 32) (hiw : i < workerC) :
    (workerPeers clientIds i = [] →
      rs_to_multi_record scratch isUtf8 clientIds p maxSz i = none) ∧
    (∀ c, workerPeers clientIds i = [c] →
      rs_to_multi_record scratch isUtf8 clientIds p maxSz i =
        some (kindByte .single % 256 ::
          (leBytes 4 c ++
            (wsHeaderBytes isUtf8 (scratch.length + p.length) ++
              (scratch ++ p))))) ∧
    (∀ c cs, workerPeers clientIds i = c :: cs → cs ≠ [] →
      rs_to_multi_record scratch isUtf8 clientIds p maxSz i =
        some (kindByte .array % 256 ::
          ((leBytes 4 (c :: cs).length ++
            ((c :: cs).map (fun r => leBytes 4 r)).flatten) ++
            (wsHeaderBytes isUtf8 (scratch.length + p.length) ++
              (scratch ++ p))))) ∧
    (∀ b, (i, b) ∈ rs_to_multi workerC scratch isUtf8 clientIds p maxSz ↔
      rs_to_multi_record scratch isUtf8 clientIds p maxSz i = some b) ∧
    (∀ b, rs_to_multi_record scratch isUtf8 clientIds p maxSz i = some b →
      ∃ pre, b = pre ++ (scratch ++ p)) := by
  have ha : workerPeers clientIds i = [] →
      rs_to_multi_record scratch isUtf8 clientIds p maxSz i = none := by
    intro h
    unfold rs_to_multi_record
    rw [h]
  have hb : ∀ c, workerPeers clientIds i = [c] →
      rs_to_multi_record scratch isUtf8 clientIds p maxSz i =
        some (kindByte .single % 256 ::
          (leBytes 4 c ++
            (wsHeaderBytes isUtf8 (scratch.length + p.length) ++
              (scratch ++ p)))) := by
    intro c h
    unfold rs_to_multi_record
    rw [h]
    show rs_send scratch .single [c] 1 isUtf8 p maxSz = _
    simp only [rs_send]
    rw [if_neg (by omega), recipientBytes_one]
  have hc : ∀ c cs, workerPeers clientIds i = c :: cs → cs ≠ [] →
      rs_to_multi_record scratch isUtf8 clientIds p maxSz i =
        some (kindByte .array % 256 ::
          ((leBytes 4 (c :: cs).length ++
            ((c :: cs).map (fun r => leBytes 4 r)).flatten) ++
            (wsHeaderBytes isUtf8 (scratch.length + p.length) ++
              (scratch ++ p)))) := by
    intro c cs h hne
    obtain ⟨c2, cs2, rfl⟩ := List.exists_cons_of_ne_nil hne
    have hlen : (c :: c2 :: cs2).length < 2 ^ 32 := by
      have := workerPeers_length_le clientIds i
      rw [h] at this
      omega
    unfold rs_to_multi_record
    rw [h]
    show rs_send scratch .array (c :: c2 :: cs2) (c :: c2 :: cs2).length
        isUtf8 p maxSz = _
    simp only [rs_send]
    rw [if_neg (by omega), recipientBytes_full _ (by simp) hlen]
  have hd : ∀ b,
      (i, b) ∈ rs_to_multi workerC scratch isUtf8 clientIds p maxSz ↔
      rs_to_multi_record scratch isUtf8 clientIds p maxSz i = some b := by
    intro b
    unfold rs_to_multi
    rw [List.mem_filterMap]
    constructor
    · rintro ⟨j, hj, hmap⟩
      rw [Option.map_eq_some'] at hmap
      obtain ⟨a, ha1, ha2⟩ := hmap
      injection ha2 with hji hab
      subst hji
      subst hab
      exact ha1
    · intro h
      exact ⟨i, List.mem_range.mpr hiw, by rw [h]; rfl⟩
  refine ⟨ha, hb, hc, hd, ?_⟩
  intro b hbr
  cases hwp : workerPeers clientIds i with
  | nil =>
      rw [ha hwp] at hbr
      simp at hbr
  | cons c rest =>
      cases rest with
      | nil =>
          rw [hb c hwp] at hbr
          injection hbr with hbe
          subst hbe
          exact ⟨kindByte .single % 256 ::
            (leBytes 4 c ++
              wsHeaderBytes isUtf8 (scratch.length + p.length)),
            by simp⟩
      | cons c2 cs2 =>
          rw [hc c (c2 :: cs2) hwp (by simp)] at hbr
          injection hbr with hbe
          subst hbe
          exact ⟨kindByte .array % 256 ::
            ((leBytes 4 (c :: c2 :: cs2).length ++
              ((c :: c2 :: cs2).map (fun r => leBytes 4 r)).flatten) ++
              wsHeaderBytes isUtf8 (scratch.length + p.length)),
            by simp⟩

theorem c7_to_multi_partition_witness :
    rs_to_multi_record [] false
      [rs_get_client_id 0 7, rs_get_client_id 1 3] [65, 66] 100 0 =
      some [0, 7, 0, 0, 0, 130, 65, 66] ∧
    rs_to_multi_record [] false
      [rs_get_client_id 0 7, rs_get_client_id 1 3] [65, 66] 100 1 =
      some [0, 3, 0, 0, 0, 130, 65, 66] := by
  constructor
  · have h := (c7_to_multi_partition 2 [] false
      [rs_get_client_id 0 7, rs_get_client_id 1 3] [65, 66] 100 0
      (by decide) (by decide) (by decide)).2.1 7 (by decide)
    rw [h]
    decide
  · have h := (c7_to_multi_partition 2 [] false
      [rs_get_client_id 0 7, rs_get_client_id 1 3] [65, 66] 100 1
      (by decide) (by decide) (by decide)).2.1 3 (by decide)
    rw [h]
    decide

/-- C10, counterexample to the claim as stated: with `realloc_multiplier =
2 ≥ 2` and `incr_size = 2^64 - 1 ≥ 1`, a buffer of size 16 with
`wbuf_i = 5` makes the `size_t` sum `wbuf_i + incr_size` wrap to `4`, so
the growth guard at `ringsocket_app_helper.h:26` does not fire,
`rs_check_app_wsize` returns RS_OK with the buffer untouched, and yet
`wbuf_i + incr_size < *wbuf_size` is false — the subsequent append of
`incr_size` bytes would not stay within the allocation. -/
theorem c10_check_wsize_wraparound_counterexample :
    rs_check_app_wsize false 16 5 (2 ^ 64 - 1) 2 true true =
      some (false, 16) ∧
    ¬(5 + (2 ^ 64 - 1) < 16) := by
  constructor
  · decide
  · omega

/-- C10, amended: if additionally neither `wbuf_i + incr_size` nor
`realloc_multiplier * (wbuf_i + incr_size)` wraps around `size_t`, then
whenever `rs_check_app_wsize` returns RS_OK the scratch buffer is non-NULL
and `wbuf_i + incr_size < *wbuf_size`, so an append of `incr_size` bytes at
offset `wbuf_i` stays strictly within the allocation. -/
theorem c10_check_wsize_growth (wbufNull : Bool)
    (wbufSize wbufI incrSize mult : Nat) (callocOk reallocOk : Bool)
    (nullOut : Bool) (sizeOut : Nat)
    (hm : 2 ≤ mult) (hincr : 1 ≤ incrSize)
    (hs : wbufI + incrSize < 2 ^ 64)
    (hp : mult * (wbufI + incrSize) < 2 ^ 64)
    (h : rs_check_app_wsize wbufNull wbufSize wbufI incrSize mult callocOk
      reallocOk = some (nullOut, sizeOut)) :
    nullOut = false ∧ wbufI + incrSize < sizeOut := by
  unfold rs_check_app_wsize at h
  rw [Nat.mod_eq_of_lt hs, Nat.mod_eq_of_lt hp] at h
  have fin2 : (if wbufI + incrSize ≥ wbufSize then
        (if reallocOk = true then
          some ((false : Bool), mult * (wbufI + incrSize))
        else none)
      else some ((false : Bool), wbufSize)) = some (nullOut, sizeOut) →
      nullOut = false ∧ wbufI + incrSize < sizeOut := by
    intro h2
    split_ifs at h2 with hge hro
    · injection h2 with h3
      injection h3 with h4 h5
      refine ⟨h4.symm, ?_⟩
      rw [← h5]
      calc wbufI + incrSize < 2 * (wbufI + incrSize) := by omega
        _ ≤ mult * (wbufI + incrSize) := Nat.mul_le_mul_right _ hm
    · injection h2 with h3
      injection h3 with h4 h5
      exact ⟨h4.symm, by omega⟩
  cases wbufNull <;> cases callocOk
  · exact fin2 h
  · exact fin2 h
  · exact absurd h (by simp)
  · exact fin2 h

theorem c10_check_wsize_growth_witness :
    (false = false ∧ 5 + 7 < 16) ∧ (false = false ∧ 5 + 20 < 50) :=
  ⟨c10_check_wsize_growth false 16 5 7 2 true true false 16
      (by norm_num) (by norm_num) (by norm_num) (by norm_num) (by decide),
   c10_check_wsize_growth false 16 5 20 2 true true false 50
      (by norm_num) (by norm_num) (by norm_num) (by norm_num) (by decide)⟩

end RingSocket
